import Mathlib

/-!
Shallow embedding of the cap lifecycle of the admin Telegram bot
(src/admin/flows/capManagement.ts, src/admin/storage.ts,
src/admin/tonClient.ts, src/admin/messages.ts, src/admin/utils/records.ts).

Modelling conventions:
* TypeScript nullish values (null or undefined) are `Option.none`; the one
  place the code distinguishes undefined from null (the `saleTime` field,
  coalesced with `!== undefined` in `mergeCapSummary`) is modelled as
  `Option (Option Int)` with `none` = undefined and `some none` = null.
* Decimal TON price strings are modelled as `Option (Int × Nat)` scaled
  decimals: `some (m, e)` is the exact value m / 10^e a BigNumber holds for
  the decimal string (so "10" is `some (10, 0)`); `none` stands for null as
  well as for a string BigNumber parses to NaN (both make `tonToNano`
  return "0"). Nano-unit amount strings are their `Int` value.
* Timestamps are `Int` (epoch millis); `Date.now()` is passed in as `now`.
* Backend JSON responses (`ApiRecord`) are a `Json` tree; the async backend
  calls of an approval are supplied as a `LedgerOracle` of
  `Except String Json` results, and the writes actually performed are
  collected in a `LedgerPost` list.
* The in-memory `announcedCaps` map is an association list in insertion
  order, matching the iteration order of a JavaScript `Map`.
-/

/-- Lifecycle states, from the `CapState` union in src/admin/types.ts. -/
inductive CapState where
  | PARTIAL_PUBLISHED
  | PUBLISHED
  | APPROVED
  | REJECTED
  | APPROVED_SOLD
  | SOLD_PUBLISHED
  | SOLD_APPROVED
  | SOLD_REJECTED
deriving DecidableEq, Repr

/-- JSON-like values standing for the untyped `ApiRecord` backend responses. -/
inductive Json where
  | null
  | bool (b : Bool)
  | num (n : Int)
  | str (s : String)
  | arr (items : List Json)
  | obj (fields : List (String × Json))
deriving Repr

/-- Property access `j[k]` on a JSON value: `none` when the key is absent or
the value is not an object (JavaScript would yield undefined). -/
def jsGet (j : Json) (k : String) : Option Json :=
  match j with
  | .obj fields => fields.lookup k
  | _ => none

/-- True when a looked-up property is absent, undefined or null. -/
def isNullish (o : Option Json) : Bool :=
  match o with
  | none => true
  | some .null => true
  | some _ => false

/-- Identifier as returned by `extractIdentifier`: a number or a trimmed
nonempty string (src/admin/utils/records.ts, normalizeIdentifier). -/
inductive Ident where
  | num (n : Int)
  | str (s : String)
deriving DecidableEq, Repr

/-- normalizeIdentifier from src/admin/utils/records.ts: finite numbers pass
through, strings are trimmed and must be nonempty, everything else is null. -/
def normalizeIdentifier (v : Json) : Option Ident :=
  match v with
  | .num n => some (.num n)
  | .str s =>
      let t := s.trim
      if t.length > 0 then some (.str t) else none
  | _ => none

/-- First key of `keys` that is present on the object fields and normalizes
to a non-null identifier (the hasOwnProperty loop of `extractIdentifier`). -/
def keyHits (keys : List String) (fields : List (String × Json)) : Option Ident :=
  keys.findSome? (fun k => (fields.lookup k).bind normalizeIdentifier)

mutual

/-- The recursive `visit` of `extractIdentifier`: direct keys first, then a
depth-first scan over the object values (insertion order). Non-objects give
null. The visited-set of the source only guards against reference cycles,
which a tree-shaped JSON value cannot have. -/
def visitIdent (keys : List String) : Json → Option Ident
  | .obj fields =>
      match keyHits keys fields with
      | some i => some i
      | none => visitFields keys fields
  | .arr items => visitItems keys items
  | _ => none

def visitFields (keys : List String) : List (String × Json) → Option Ident
  | [] => none
  | (_, v) :: rest =>
      match visitIdent keys v with
      | some i => some i
      | none => visitFields keys rest

def visitItems (keys : List String) : List Json → Option Ident
  | [] => none
  | v :: rest =>
      match visitIdent keys v with
      | some i => some i
      | none => visitItems keys rest

end

/-- extractIdentifier from src/admin/utils/records.ts: unwrap a non-null
`data` envelope if present, scan it, then fall back to scanning the whole
record. -/
def extractIdentifier (record : Option Json) (keys : List String) : Option Ident :=
  match record with
  | none => none
  | some r =>
      let root :=
        match jsGet r "data" with
        | none => r
        | some .null => r
        | some v => v
      match visitIdent keys root with
      | some i => some i
      | none => visitIdent keys r

/-- The identifier key list used by approveCap for both the buy and the sell
transaction records. -/
def idKeys : List String := ["TxID", "txId", "transactionId", "id"]

/-- CapSummary from src/admin/types.ts, with the nullish defensiveness the
merge and approval code applies at runtime. -/
structure CapSummary where
  onchainAddress : Option String
  offchainGetgemsAddress : String
  name : Option String
  capNumber : Option Int
  collectionAddress : Option String
  image : Option String
  saleType : Option String
  buyPriceTon : Option (Int × Nat)
  salePriceTon : Option (Int × Nat)
  detectedAt : Option Int
  buyTime : Option Int
  saleTime : Option (Option Int)
  getGemsUrl : String
  txHash : String
  fromWalletAddress : String
  toWalletAddress : String
  giftId : Option Int
deriving DecidableEq, Repr

/-- mergeCapSummary (capManagement.ts lines 105-134): field-wise nullish
coalesce, update first, then base, then a default. `saleTime` alone is
coalesced with `!== undefined`, so an explicit null in `update` wins. The
`Date.now()` fallback for `detectedAt` and `buyTime` is the `now` argument.
Fields whose TypeScript type is a non-null string keep the update value, as
the `?? base ?? ""` chain never fires for them. -/
def mergeCapSummary (now : Int) (base : Option CapSummary) (update : CapSummary) :
    CapSummary where
  onchainAddress := update.onchainAddress <|> base.bind (·.onchainAddress)
  offchainGetgemsAddress := update.offchainGetgemsAddress
  name := update.name <|> base.bind (·.name)
  capNumber := update.capNumber <|> base.bind (·.capNumber)
  collectionAddress := update.collectionAddress <|> base.bind (·.collectionAddress)
  image := update.image <|> base.bind (·.image)
  saleType := update.saleType <|> base.bind (·.saleType)
  buyPriceTon := update.buyPriceTon <|> base.bind (·.buyPriceTon)
  salePriceTon := update.salePriceTon <|> base.bind (·.salePriceTon)
  detectedAt := some (((update.detectedAt) <|> base.bind (·.detectedAt)).getD now)
  buyTime := some ((update.buyTime <|> base.bind (·.buyTime)).getD now)
  saleTime :=
    match update.saleTime with
    | some v => some v
    | none => some (base.bind (fun b => b.saleTime.bind id))
  getGemsUrl := update.getGemsUrl
  txHash := update.txHash
  fromWalletAddress := update.fromWalletAddress
  toWalletAddress := update.toWalletAddress
  giftId := some ((update.giftId <|> base.bind (·.giftId)).getD 0)

/-- determineSaleState (capManagement.ts lines 136-151). -/
def determineSaleState (previousState : Option CapState) : CapState :=
  match previousState with
  | some .APPROVED | some .APPROVED_SOLD => .APPROVED_SOLD
  | some .REJECTED | some .SOLD_REJECTED => .SOLD_REJECTED
  | some .SOLD_APPROVED => .SOLD_APPROVED
  | _ => .SOLD_PUBLISHED

/-- isSoldState (capManagement.ts lines 153-160). -/
def isSoldState (state : Option CapState) : Bool :=
  match state with
  | some .SOLD_PUBLISHED | some .SOLD_APPROVED
  | some .SOLD_REJECTED | some .APPROVED_SOLD => true
  | _ => false

/-- shouldDisableActions (capManagement.ts lines 93-103). -/
def shouldDisableActions (state : CapState) : Bool :=
  match state with
  | .APPROVED | .REJECTED | .SOLD_APPROVED | .SOLD_REJECTED => true
  | _ => false

/-- An inline keyboard button. -/
structure Button where
  text : String
  callback_data : String
deriving DecidableEq, Repr

/-- buildActionKeyboard from src/admin/messages.ts: the single
Approve / Edit / Reject row keyed by the cap address. -/
def buildActionKeyboard (capAddress : String) : List (List Button) :=
  [[{ text := "Approve", callback_data := "approve_" ++ capAddress },
    { text := "Edit", callback_data := "edit_" ++ capAddress },
    { text := "Reject", callback_data := "reject_" ++ capAddress }]]

/-- The reply markup attached to every broadcast and refresh of a cap
message: empty when actions are disabled for the state, otherwise the action
keyboard (capManagement.ts lines 62-65 and 167-170, with disableActions
always supplied as `shouldDisableActions state` at lines 281, 363). -/
def renderedKeyboard (address : String) (state : CapState) : List (List Button) :=
  if shouldDisableActions state then [] else buildActionKeyboard address

/-- StoredCap from src/admin/types.ts. Message ids are an association list
from chat id to message id. -/
structure StoredCap where
  item : CapSummary
  state : CapState
  publishedChatIds : List Int
  messageIds : List (Int × Int)
  isEdited : Bool
  buyTransactionRecord : Option Json
  capStrRecord : Option Json
  hasManualChanges : Bool
  sellTransactionRecord : Option Json
deriving Repr

/-- The announcedCaps map, in insertion order. -/
def Store := List (String × StoredCap)

/-- Map lookup by address key. -/
def storeGet : Store → String → Option StoredCap
  | [], _ => none
  | (k, v) :: rest, a => if k = a then some v else storeGet rest a

/-- Map set: replaces the value at an existing key in place, otherwise
appends, as a JavaScript `Map.set` does. -/
def storeSet : Store → String → StoredCap → Store
  | [], a, v => [(a, v)]
  | (k, w) :: rest, a, v =>
      if k = a then (a, v) :: rest else (k, w) :: storeSet rest a v

/-- isSellTransactionPending (src/admin/storage.ts lines 23-30): unwrap a
non-null `data` envelope, then the record is pending when both the
`SellTransaction` and the `sellTransaction` property are absent or null.
Property access on an array yields undefined, so an array envelope counts
as pending; a primitive envelope fails the typeof-object check. -/
def isSellTransactionPending (record : Option Json) : Bool :=
  match record with
  | none => false
  | some r =>
      let data :=
        match jsGet r "data" with
        | none => r
        | some .null => r
        | some v => v
      match data with
      | .obj fields =>
          isNullish (fields.lookup "SellTransaction") &&
          isNullish (fields.lookup "sellTransaction")
      | .arr _ => true
      | _ => false

/-- The match predicate of findCapByGiftNumber: the stored item carries the
requested number as giftId or as capNumber. -/
def matchesGiftNumber (giftNumber : Int) (stored : StoredCap) : Bool :=
  decide (stored.item.giftId = some giftNumber) ||
  decide (stored.item.capNumber = some giftNumber)

/-- The ordered list of store values matching a gift number. -/
def matchesOf (store : Store) (giftNumber : Int) : List StoredCap :=
  (store.map (·.2)).filter (matchesGiftNumber giftNumber)

/-- findCapByGiftNumber (src/admin/storage.ts lines 174-204): collect the
matches in map order, prefer the first one whose cap record has a pending
sell transaction, then the first one with any cap record, then the first
match. -/
def findCapByGiftNumber (store : Store) (giftNumber : Int) : Option StoredCap :=
  match matchesOf store giftNumber with
  | [] => none
  | m :: rest =>
      let withCapRecord := (m :: rest).filter (fun s => s.capStrRecord.isSome)
      match withCapRecord.find? (fun s => isSellTransactionPending s.capStrRecord) with
      | some pendingSell => some pendingSell
      | none =>
          match withCapRecord with
          | c :: _ => some c
          | [] => some m

/-- tonToNano (src/admin/tonClient.ts lines 592-605): null or an unparsable
string gives 0, a negative amount gives 0, otherwise the floor of the
decimal TON amount times 10^9. On the scaled-decimal encoding m / 10^e this
floor is the floor division of m * 10^9 by 10^e. The resulting nano string
is the decimal rendering of this integer. -/
def tonToNano (value : Option (Int × Nat)) : Int :=
  match value with
  | none => 0
  | some (m, e) =>
      if m < 0 then 0 else Int.fdiv (m * 10 ^ 9) ((10 : Int) ^ e)

/-- The sale timestamp approveCap resolves for the sold branch:
`cap.saleTime ?? cap.detectedAt ?? cap.buyTime ?? Date.now()`
(capManagement.ts lines 491-493). Every branch is a finite number here, so
the Number.isFinite guard of line 494 never fires in the model. -/
def resolvedSaleTime (now : Int) (cap : CapSummary) : Int :=
  ((cap.saleTime.bind id) <|> cap.detectedAt <|> cap.buyTime).getD now

/-- True when `stored.item.saleTime !== null && !== undefined`
(capManagement.ts lines 544-545). -/
def saleTimeIsSet (saleTime : Option (Option Int)) : Bool :=
  match saleTime with
  | some (some _) => true
  | _ => false

/-- The results the backend would return for each ledger write an approval
can perform. Each call happens at most once per approveCap run, so one
result per endpoint suffices; an `Except.error` models a thrown
transport or HTTP error. -/
structure LedgerOracle where
  buyCreate : Except String Json
  capCreate : Except String Json
  sellCreate : Except String Json
  soldPatch : Except String Json

/-- One backend write actually attempted during an approval, with the
arguments the code passes (tonClient.ts createTransactionRecord,
createCapRecord, createSellTransactionRecord, markCapAsSold). -/
inductive LedgerPost where
  | buyCreate (cap : CapSummary)
  | capCreate (cap : CapSummary) (state : CapState) (buyTransactionId : Ident)
  | sellCreate (cap : CapSummary) (saleTime : Int)
  | markSold (giftNumber : Int) (soldForNano : Int) (sellDate : Int)
      (sellTransactionId : Ident)

def isBuyCreate : LedgerPost → Bool
  | .buyCreate _ => true
  | _ => false

def isCapCreate : LedgerPost → Bool
  | .capCreate _ _ _ => true
  | _ => false

def isSellCreate : LedgerPost → Bool
  | .sellCreate _ _ => true
  | _ => false

def isMarkSold : LedgerPost → Bool
  | .markSold _ _ _ _ => true
  | _ => false

/-- Result of one approveCap run: the store after all in-place mutations,
the backend writes attempted, and the outcome (ok, or the thrown error). -/
abbrev ApproveResult := Store × List LedgerPost × Except String Unit

/-- Tail of the sold branch of approveCap (capManagement.ts lines 508-539):
extract the sell transaction identifier, resolve the gift number, call
markCapAsSold, store the returned record and advance to SOLD_APPROVED. Any
throw leaves the already mutated stored value in the map. -/
def approveSoldFinish (oracle : LedgerOracle) (store : Store) (address : String)
    (stored1 : StoredCap) (cap : CapSummary) (salePriceNano saleTime : Int)
    (posts : List LedgerPost) : ApproveResult :=
  match extractIdentifier stored1.sellTransactionRecord idKeys with
  | none =>
      (storeSet store address stored1, posts,
        .error ("Sell transaction record for " ++ cap.offchainGetgemsAddress ++
          " missing identifier"))
  | some sellTransactionId =>
      match cap.giftId <|> cap.capNumber with
      | none =>
          (storeSet store address stored1, posts,
            .error ("Gift number unavailable for " ++ cap.offchainGetgemsAddress ++
              "; cannot approve sale"))
      | some giftNumber =>
          match oracle.soldPatch with
          | .error e =>
              (storeSet store address stored1,
                posts ++ [.markSold giftNumber salePriceNano saleTime sellTransactionId],
                .error e)
          | .ok soldRecord =>
              (storeSet store address
                  { stored1 with capStrRecord := some soldRecord,
                                 state := .SOLD_APPROVED },
                posts ++ [.markSold giftNumber salePriceNano saleTime sellTransactionId],
                .ok ())

/-- Sold branch of approveCap after the price and time guards
(capManagement.ts lines 500-507): create the sell transaction record once,
skipped when already present. -/
def approveSoldEnsure (oracle : LedgerOracle) (store : Store) (address : String)
    (stored : StoredCap) (cap : CapSummary) (salePriceNano saleTime : Int) :
    ApproveResult :=
  match stored.sellTransactionRecord with
  | none =>
      match oracle.sellCreate with
      | .error e => (store, [.sellCreate cap saleTime], .error e)
      | .ok r =>
          approveSoldFinish oracle store address
            { stored with sellTransactionRecord := some r }
            cap salePriceNano saleTime [.sellCreate cap saleTime]
  | some _ => approveSoldFinish oracle store address stored cap salePriceNano saleTime []

/-- End of the default approval path (capManagement.ts lines 559-561). -/
def approveFinish (store : Store) (address : String) (stored2 : StoredCap)
    (posts : List LedgerPost) : ApproveResult :=
  (storeSet store address { stored2 with state := .APPROVED }, posts, .ok ())

/-- Second half of ensureApprovalPrerequisites (capManagement.ts lines
444-470): extract the buy transaction identifier, then create the cap
record once if absent. -/
def ensureCapThen (oracle : LedgerOracle) (store : Store) (address : String)
    (stored1 : StoredCap) (cap : CapSummary) (posts : List LedgerPost) :
    ApproveResult :=
  match extractIdentifier stored1.buyTransactionRecord idKeys with
  | none =>
      (storeSet store address stored1, posts,
        .error ("Transaction record for " ++ cap.offchainGetgemsAddress ++
          " missing identifier"))
  | some buyTransactionId =>
      match stored1.capStrRecord with
      | none =>
          match oracle.capCreate with
          | .error e =>
              (storeSet store address stored1,
                posts ++ [.capCreate cap .APPROVED buyTransactionId], .error e)
          | .ok r =>
              approveFinish store address { stored1 with capStrRecord := some r }
                (posts ++ [.capCreate cap .APPROVED buyTransactionId])
      | some _ => approveFinish store address stored1 posts

/-- First half of ensureApprovalPrerequisites (capManagement.ts lines
439-443): create the buy transaction record once if absent. A throw from
the create happens before any assignment, so the store is untouched. -/
def ensureBuyThen (oracle : LedgerOracle) (store : Store) (address : String)
    (stored : StoredCap) (cap : CapSummary) : ApproveResult :=
  match stored.buyTransactionRecord with
  | none =>
      match oracle.buyCreate with
      | .error e => (store, [.buyCreate cap], .error e)
      | .ok r =>
          ensureCapThen oracle store address
            { stored with buyTransactionRecord := some r } cap [.buyCreate cap]
  | some _ => ensureCapThen oracle store address stored cap []

/-- approveCap (capManagement.ts lines 430-562). Branch order as in the
source: unknown address throws; SOLD_APPROVED refreshes only; the sold trio
runs the sale approval (price guard, then sell record, then markCapAsSold);
APPROVED or REJECTED with a set sale time jumps to APPROVED_SOLD; everything
else runs ensureApprovalPrerequisites and lands in APPROVED. -/
def approveCap (now : Int) (oracle : LedgerOracle) (store : Store)
    (address : String) : ApproveResult :=
  match storeGet store address with
  | none => (store, [], .error ("Cap " ++ address ++ " not found for approval"))
  | some stored =>
      let cap := stored.item
      if stored.state = CapState.SOLD_APPROVED then
        (store, [], .ok ())
      else if stored.state = CapState.SOLD_PUBLISHED ∨
          stored.state = CapState.SOLD_REJECTED ∨
          stored.state = CapState.APPROVED_SOLD then
        let salePriceNano := tonToNano cap.salePriceTon
        if salePriceNano = 0 then
          (store, [],
            .error ("Sale price unavailable for " ++ cap.offchainGetgemsAddress ++
              "; cannot approve sale"))
        else
          approveSoldEnsure oracle store address stored cap salePriceNano
            (resolvedSaleTime now cap)
      else if (stored.state = CapState.APPROVED ∨ stored.state = CapState.REJECTED) ∧
          saleTimeIsSet cap.saleTime = true then
        (storeSet store address { stored with state := .APPROVED_SOLD }, [], .ok ())
      else
        ensureBuyThen oracle store address stored cap

/-- rejectCap (capManagement.ts lines 564-582): silently returns on an
unknown address; a sold-phase item moves to SOLD_REJECTED, anything else to
REJECTED. -/
def rejectCap (store : Store) (address : String) : Store :=
  match storeGet store address with
  | none => store
  | some stored =>
      let newState :=
        if stored.state = CapState.SOLD_PUBLISHED ∨
            stored.state = CapState.SOLD_APPROVED ∨
            stored.state = CapState.APPROVED_SOLD then
          CapState.SOLD_REJECTED
        else
          CapState.REJECTED
      storeSet store address { stored with state := newState }

/-- The approve_ branch of the callback_query handler (capManagement.ts
lines 653-664): on success the operator sees "Approved"; a thrown error is
caught and surfaced as the failure callback answer plus a reply. -/
def handleApproveCallback (now : Int) (oracle : LedgerOracle) (store : Store)
    (address : String) : Store × List LedgerPost × List String :=
  match approveCap now oracle store address with
  | (s, p, .ok _) => (s, p, ["Approved"])
  | (s, p, .error _) =>
      (s, p, ["Approval failed", "Failed to approve cap. Check logs for details."])

/-- The reject_ branch of the callback_query handler (capManagement.ts
lines 665-675): a stored item in any sold state is answered with the
coming-soon notice and rejectCap is never called; otherwise rejectCap runs
and the operator sees "Rejected". -/
def handleRejectCallback (store : Store) (address : String) : Store × String :=
  if isSoldState ((storeGet store address).map (·.state)) then
    (store, "Sale rejection review coming soon")
  else
    (rejectCap store address, "Rejected")

/-- Sale normalization at the top of the processSaleAnnouncements loop
(capManagement.ts lines 237-244): a present non-null saleTime is kept,
otherwise detectedAt then buyTime; when all three are nullish the property
is set to undefined. -/
def normalizeSale (sale : CapSummary) : CapSummary :=
  let saleTimestamp : Option Int :=
    match sale.saleTime with
    | some (some t) => some t
    | _ => sale.detectedAt <|> sale.buyTime
  { sale with saleTime := saleTimestamp.map some }

/-- One iteration of the processSaleAnnouncements loop (capManagement.ts
lines 236-287) on the store. A known key merges (manual changes make the
existing item the update side), marks the item edited and moves it to
determineSaleState of its prior state; an unknown key inserts a fresh
SOLD_PUBLISHED item. -/
def processSaleAnnouncement (now : Int) (subscribedChats : List Int)
    (store : Store) (sale : CapSummary) : Store :=
  let normalized := normalizeSale sale
  let address := normalized.offchainGetgemsAddress
  match storeGet store address with
  | some existing =>
      let mergedItem :=
        if existing.hasManualChanges then
          mergeCapSummary now (some normalized) existing.item
        else
          mergeCapSummary now (some existing.item) normalized
      storeSet store address
        { existing with item := mergedItem, isEdited := true,
                        state := determineSaleState (some existing.state) }
  | none =>
      storeSet store address
        { item := normalized
          state := .SOLD_PUBLISHED
          publishedChatIds := subscribedChats
          messageIds := []
          isEdited := false
          buyTransactionRecord := none
          capStrRecord := none
          hasManualChanges := false
          sellTransactionRecord := none }

/-- The effective sell transaction record a sold-branch approval works
with: the stored one when present, otherwise the one a successful create
returns (capManagement.ts lines 500-507). -/
def effectiveSellRecord (stored : StoredCap) (oracle : LedgerOracle) : Option Json :=
  match stored.sellTransactionRecord with
  | some r => some r
  | none =>
      match oracle.sellCreate with
      | .ok r => some r
      | .error _ => none

/-- Record fields can only be preserved, never dropped, between the two
stored values. -/
def RecordsMono (a b : StoredCap) : Prop :=
  (∀ r, a.buyTransactionRecord = some r → b.buyTransactionRecord = some r) ∧
  (∀ r, a.capStrRecord = some r → b.capStrRecord = some r) ∧
  (∀ r, a.sellTransactionRecord = some r → b.sellTransactionRecord = some r)

/-- Every field of `winner` that carries a value survives into `merged`;
the plain-string fields are taken from `winner` outright. -/
def winsAllDefinedFields (winner merged : CapSummary) : Prop :=
  (∀ v, winner.onchainAddress = some v → merged.onchainAddress = some v) ∧
  (∀ v, winner.name = some v → merged.name = some v) ∧
  (∀ v, winner.capNumber = some v → merged.capNumber = some v) ∧
  (∀ v, winner.collectionAddress = some v → merged.collectionAddress = some v) ∧
  (∀ v, winner.image = some v → merged.image = some v) ∧
  (∀ v, winner.saleType = some v → merged.saleType = some v) ∧
  (∀ v, winner.buyPriceTon = some v → merged.buyPriceTon = some v) ∧
  (∀ v, winner.salePriceTon = some v → merged.salePriceTon = some v) ∧
  (∀ v, winner.detectedAt = some v → merged.detectedAt = some v) ∧
  (∀ v, winner.buyTime = some v → merged.buyTime = some v) ∧
  (∀ s, winner.saleTime = some s → merged.saleTime = some s) ∧
  (∀ v, winner.giftId = some v → merged.giftId = some v) ∧
  merged.offchainGetgemsAddress = winner.offchainGetgemsAddress ∧
  merged.getGemsUrl = winner.getGemsUrl ∧
  merged.txHash = winner.txHash ∧
  merged.fromWalletAddress = winner.fromWalletAddress ∧
  merged.toWalletAddress = winner.toWalletAddress

theorem storeGet_storeSet_self (s : Store) (k : String) (v : StoredCap) :
    storeGet (storeSet s k v) k = some v := by
  induction s with
  | nil => simp [storeSet, storeGet]
  | cons hd tl ih =>
      obtain ⟨k', w⟩ := hd
      by_cases h : k' = k
      · simp [storeSet, storeGet, h]
      · simp [storeSet, storeGet, h, ih]

/-- The update side of mergeCapSummary always keeps its defined values. -/
theorem mergeCapSummary_update_wins (now : Int) (base : Option CapSummary)
    (update : CapSummary) :
    winsAllDefinedFields update (mergeCapSummary now base update) := by
  refine ⟨?_, ?_, ?_, ?_, ?_, ?_, ?_, ?_, ?_, ?_, ?_, ?_, rfl, rfl, rfl, rfl, rfl⟩ <;>
    intro v h <;>
    simp [mergeCapSummary, h]

/-- A sample summary used by concrete witnesses. -/
def sampleCap (addr : String) : CapSummary where
  onchainAddress := none
  offchainGetgemsAddress := addr
  name := some "Durov Cap"
  capNumber := some 7
  collectionAddress := none
  image := none
  saleType := some "auction"
  buyPriceTon := some (5, 0)
  salePriceTon := some (10, 0)
  detectedAt := some 1700000000000
  buyTime := some 1690000000000
  saleTime := none
  getGemsUrl := "https://getgems.io/cap"
  txHash := "abc123"
  fromWalletAddress := "FROM"
  toWalletAddress := "TO"
  giftId := some 42

/-- A sample stored item with no ledger records yet. -/
def sampleStored (addr : String) (st : CapState) : StoredCap where
  item := sampleCap addr
  state := st
  publishedChatIds := [100]
  messageIds := []
  isEdited := false
  buyTransactionRecord := none
  capStrRecord := none
  hasManualChanges := false
  sellTransactionRecord := none

/-- C1 counterexample: in state APPROVED_SOLD the actions are not disabled,
so a refresh or broadcast renders the full three-button keyboard, not the
empty one the claim requires. -/
theorem C1_counterexample :
    shouldDisableActions CapState.APPROVED_SOLD = false ∧
    renderedKeyboard "X" CapState.APPROVED_SOLD = buildActionKeyboard "X" ∧
    buildActionKeyboard "X" ≠ [] := by
  refine ⟨rfl, rfl, by decide⟩

/-- C1 (amended): the keyboard rendered on broadcast and refresh is empty
exactly for APPROVED, REJECTED, SOLD_APPROVED and SOLD_REJECTED; in
APPROVED_SOLD — as in PUBLISHED, SOLD_PUBLISHED and PARTIAL_PUBLISHED — it
is the three-button Approve/Edit/Reject row keyed by the address. -/
theorem C1_keyboard_suppression (address : String) :
    renderedKeyboard address CapState.APPROVED = [] ∧
    renderedKeyboard address CapState.REJECTED = [] ∧
    renderedKeyboard address CapState.SOLD_APPROVED = [] ∧
    renderedKeyboard address CapState.SOLD_REJECTED = [] ∧
    renderedKeyboard address CapState.APPROVED_SOLD = buildActionKeyboard address ∧
    renderedKeyboard address CapState.PUBLISHED = buildActionKeyboard address ∧
    renderedKeyboard address CapState.SOLD_PUBLISHED = buildActionKeyboard address ∧
    renderedKeyboard address CapState.PARTIAL_PUBLISHED = buildActionKeyboard address :=
  ⟨rfl, rfl, rfl, rfl, rfl, rfl, rfl, rfl⟩

/-- C2 counterexample: pressing Reject on a SOLD_PUBLISHED item leaves the
store untouched and answers with the coming-soon notice; the state does not
become SOLD_REJECTED. -/
theorem C2_counterexample :
    handleRejectCallback [("X", sampleStored "X" CapState.SOLD_PUBLISHED)] "X" =
      ([("X", sampleStored "X" CapState.SOLD_PUBLISHED)],
        "Sale rejection review coming soon") ∧
    (storeGet (handleRejectCallback
        [("X", sampleStored "X" CapState.SOLD_PUBLISHED)] "X").1 "X").map (·.state) ≠
      some CapState.SOLD_REJECTED :=
  ⟨rfl, by decide⟩

/-- C2 (amended): for an item in SOLD_PUBLISHED, SOLD_APPROVED or
APPROVED_SOLD the reject_ callback is a no-op that answers with the
coming-soon notice and never reaches rejectCap; the rejectCap routine
itself, were it invoked on such an item, would move it to SOLD_REJECTED. -/
theorem C2_reject_sold_states (store : Store) (address : String)
    (stored : StoredCap)
    (hget : storeGet store address = some stored)
    (hstate : stored.state = CapState.SOLD_PUBLISHED ∨
      stored.state = CapState.SOLD_APPROVED ∨
      stored.state = CapState.APPROVED_SOLD) :
    handleRejectCallback store address = (store, "Sale rejection review coming soon") ∧
    storeGet (rejectCap store address) address =
      some { stored with state := CapState.SOLD_REJECTED } := by
  constructor
  · rcases hstate with h | h | h <;>
      simp [handleRejectCallback, hget, h, isSoldState]
  · rcases hstate with h | h | h <;>
      simp [rejectCap, hget, h, storeGet_storeSet_self]

/-- C2 witness: the amended statement applied to a concrete one-item store
holding a SOLD_PUBLISHED item. -/
theorem C2_witness :
    handleRejectCallback [("X", sampleStored "X" CapState.SOLD_PUBLISHED)] "X" =
      ([("X", sampleStored "X" CapState.SOLD_PUBLISHED)],
        "Sale rejection review coming soon") ∧
    storeGet (rejectCap [("X", sampleStored "X" CapState.SOLD_PUBLISHED)] "X") "X" =
      some { sampleStored "X" CapState.SOLD_PUBLISHED with
              state := CapState.SOLD_REJECTED } :=
  C2_reject_sold_states _ "X" _ rfl (Or.inl rfl)

/-- C6: a poll-driven sale event for an already-known key moves the item to
determineSaleState of its prior state, and that function realizes exactly
the claimed table: APPROVED and APPROVED_SOLD go to APPROVED_SOLD, REJECTED
and SOLD_REJECTED go to SOLD_REJECTED, SOLD_APPROVED stays, and every other
prior state (SOLD_PUBLISHED, PUBLISHED, PARTIAL_PUBLISHED, unset) gives
SOLD_PUBLISHED. -/
theorem C6_sale_state_transition (now : Int) (chats : List Int) (store : Store)
    (sale : CapSummary) (existing : StoredCap)
    (hget : storeGet store sale.offchainGetgemsAddress = some existing) :
    (storeGet (processSaleAnnouncement now chats store sale)
        sale.offchainGetgemsAddress).map (·.state) =
      some (determineSaleState (some existing.state)) ∧
    determineSaleState (some CapState.APPROVED) = CapState.APPROVED_SOLD ∧
    determineSaleState (some CapState.APPROVED_SOLD) = CapState.APPROVED_SOLD ∧
    determineSaleState (some CapState.REJECTED) = CapState.SOLD_REJECTED ∧
    determineSaleState (some CapState.SOLD_REJECTED) = CapState.SOLD_REJECTED ∧
    determineSaleState (some CapState.SOLD_APPROVED) = CapState.SOLD_APPROVED ∧
    determineSaleState (some CapState.SOLD_PUBLISHED) = CapState.SOLD_PUBLISHED ∧
    determineSaleState (some CapState.PUBLISHED) = CapState.SOLD_PUBLISHED ∧
    determineSaleState (some CapState.PARTIAL_PUBLISHED) = CapState.SOLD_PUBLISHED ∧
    determineSaleState none = CapState.SOLD_PUBLISHED := by
  refine ⟨?_, rfl, rfl, rfl, rfl, rfl, rfl, rfl, rfl, rfl⟩
  have haddr : (normalizeSale sale).offchainGetgemsAddress =
      sale.offchainGetgemsAddress := rfl
  simp [processSaleAnnouncement, haddr, hget, storeGet_storeSet_self]

/-- C6 witness: a sale merge on a known key whose prior state is APPROVED
lands in APPROVED_SOLD. -/
theorem C6_witness :
    (storeGet (processSaleAnnouncement 0 [100]
        [("X", sampleStored "X" CapState.APPROVED)] (sampleCap "X"))
        (sampleCap "X").offchainGetgemsAddress).map (·.state) =
      some (determineSaleState (some (sampleStored "X" CapState.APPROVED).state)) :=
  (C6_sale_state_transition 0 [100] [("X", sampleStored "X" CapState.APPROVED)]
    (sampleCap "X") (sampleStored "X" CapState.APPROVED) rfl).1

/-- C8 counterexample: a poll-driven sale merge on a never-edited item
(isEdited and hasManualChanges both false) flips isEdited to true, where the
claim requires it to stay false. -/
theorem C8_counterexample :
    (sampleStored "X" CapState.PUBLISHED).isEdited = false ∧
    (sampleStored "X" CapState.PUBLISHED).hasManualChanges = false ∧
    (storeGet (processSaleAnnouncement 0 [100]
        [("X", sampleStored "X" CapState.PUBLISHED)] (sampleCap "X")) "X").map
        (·.isEdited) = some true :=
  ⟨rfl, rfl, rfl⟩

/-- C8 (amended): the isEdited flag becomes true on every manual field edit
and also on every poll-driven sale merge for an already-known key; in
particular an item with hasManualChanges = false that receives a sale merge
has isEdited = true afterwards, not false. -/
theorem C8_merge_sets_isEdited (now : Int) (chats : List Int) (store : Store)
    (sale : CapSummary) (existing : StoredCap)
    (hget : storeGet store sale.offchainGetgemsAddress = some existing) :
    (storeGet (processSaleAnnouncement now chats store sale)
        sale.offchainGetgemsAddress).map (·.isEdited) = some true := by
  have haddr : (normalizeSale sale).offchainGetgemsAddress =
      sale.offchainGetgemsAddress := rfl
  simp [processSaleAnnouncement, haddr, hget, storeGet_storeSet_self]

/-- C8 witness: the amended statement on a concrete never-edited item. -/
theorem C8_witness :
    (storeGet (processSaleAnnouncement 0 [100]
        [("X", sampleStored "X" CapState.PUBLISHED)] (sampleCap "X"))
        (sampleCap "X").offchainGetgemsAddress).map (·.isEdited) = some true :=
  C8_merge_sets_isEdited 0 [100] [("X", sampleStored "X" CapState.PUBLISHED)]
    (sampleCap "X") (sampleStored "X" CapState.PUBLISHED) rfl

/-- C10: approval of an unknown address throws the not-found error, which
the callback handler surfaces to the operator as the failure answer and
reply, while rejection of the same unknown address returns silently: the
store is unchanged and the operator even sees the normal "Rejected"
answer. -/
theorem C10_unknown_key_asymmetry (now : Int) (oracle : LedgerOracle)
    (store : Store) (address : String)
    (habs : storeGet store address = none) :
    approveCap now oracle store address =
      (store, [], .error ("Cap " ++ address ++ " not found for approval")) ∧
    (handleApproveCallback now oracle store address).2.2 =
      ["Approval failed", "Failed to approve cap. Check logs for details."] ∧
    rejectCap store address = store ∧
    handleRejectCallback store address = (store, "Rejected") := by
  have h1 : approveCap now oracle store address =
      (store, [], .error ("Cap " ++ address ++ " not found for approval")) := by
    unfold approveCap
    rw [habs]
  refine ⟨h1, ?_, ?_, ?_⟩
  · simp [handleApproveCallback, h1]
  · unfold rejectCap
    rw [habs]
  · unfold handleRejectCallback rejectCap
    rw [habs]
    simp [isSoldState]

/-- C10 witness: the asymmetry on the empty store. -/
theorem C10_witness :
    approveCap 0 ⟨.ok .null, .ok .null, .ok .null, .ok .null⟩ [] "X" =
      ([], [], .error ("Cap " ++ "X" ++ " not found for approval")) ∧
    (handleApproveCallback 0 ⟨.ok .null, .ok .null, .ok .null, .ok .null⟩ [] "X").2.2 =
      ["Approval failed", "Failed to approve cap. Check logs for details."] ∧
    rejectCap [] "X" = [] ∧
    handleRejectCallback [] "X" = ([], "Rejected") :=
  C10_unknown_key_asymmetry 0 _ [] "X" rfl

/-- C4: on a sale merge for a known key, if hasManualChanges is true the
existing item is the update side of the merge, so all of its defined field
values survive; if hasManualChanges is false the normalized incoming sale is
the update side, so the incoming values win. -/
theorem C4_manual_edit_precedence (now : Int) (chats : List Int) (store : Store)
    (sale : CapSummary) (existing : StoredCap)
    (hget : storeGet store sale.offchainGetgemsAddress = some existing) :
    ∃ e', storeGet (processSaleAnnouncement now chats store sale)
        sale.offchainGetgemsAddress = some e' ∧
      (existing.hasManualChanges = true →
        winsAllDefinedFields existing.item e'.item) ∧
      (existing.hasManualChanges = false →
        winsAllDefinedFields (normalizeSale sale) e'.item) := by
  have haddr : (normalizeSale sale).offchainGetgemsAddress =
      sale.offchainGetgemsAddress := rfl
  cases hman : existing.hasManualChanges
  case false =>
    refine ⟨{ existing with
        item := mergeCapSummary now (some existing.item) (normalizeSale sale),
        isEdited := true,
        state := determineSaleState (some existing.state) }, ?_, ?_, ?_⟩
    · simp [processSaleAnnouncement, haddr, hget, hman, storeGet_storeSet_self]
    · intro habs
      simp at habs
    · intro _
      exact mergeCapSummary_update_wins _ _ _
  case true =>
    refine ⟨{ existing with
        item := mergeCapSummary now (some (normalizeSale sale)) existing.item,
        isEdited := true,
        state := determineSaleState (some existing.state) }, ?_, ?_, ?_⟩
    · simp [processSaleAnnouncement, haddr, hget, hman, storeGet_storeSet_self]
    · intro _
      exact mergeCapSummary_update_wins _ _ _
    · intro habs
      simp at habs

/-- A cap record whose sell transaction is still pending: neither a
SellTransaction nor a sellTransaction property is present. -/
def capRecPending : Json := Json.obj [("id", Json.num 1)]

/-- Store fixture for the numeric-id tie-break: two items share gift number
7; the first has a cap record with a pending sell transaction, the second
has no cap record at all. -/
def storedA : StoredCap :=
  { sampleStored "A" CapState.SOLD_PUBLISHED with
      item := { sampleCap "A" with giftId := some 7 },
      capStrRecord := some capRecPending }

def storedB : StoredCap :=
  { sampleStored "B" CapState.PUBLISHED with
      item := { sampleCap "B" with giftId := some 7 } }

def storeC9 : Store := [("A", storedA), ("B", storedB)]

/-- C9: findCapByGiftNumber prefers a match with a cap record whose sell
transaction is pending, then any match with a cap record, then the first
match in map order. -/
theorem C9_numeric_id_tiebreak (store : Store) (n : Int) :
    ((∃ m ∈ matchesOf store n, isSellTransactionPending m.capStrRecord = true) →
      ∃ m, findCapByGiftNumber store n = some m ∧
        isSellTransactionPending m.capStrRecord = true ∧ m ∈ matchesOf store n) ∧
    ((∀ m ∈ matchesOf store n, isSellTransactionPending m.capStrRecord = false) →
      (∃ m ∈ matchesOf store n, m.capStrRecord.isSome = true) →
      ∃ m, findCapByGiftNumber store n = some m ∧ m.capStrRecord.isSome = true ∧
        m ∈ matchesOf store n) ∧
    ((∀ m ∈ matchesOf store n, m.capStrRecord = none) →
      findCapByGiftNumber store n = (matchesOf store n).head?) := by
  unfold findCapByGiftNumber
  cases hm : matchesOf store n with
  | nil =>
      refine ⟨?_, ?_, ?_⟩
      · rintro ⟨x, hx, -⟩
        simp at hx
      · rintro - ⟨x, hx, -⟩
        simp at hx
      · intro _
        rfl
  | cons m rest =>
      refine ⟨?_, ?_, ?_⟩
      · rintro ⟨x, hx, hpend⟩
        have hsome : x.capStrRecord.isSome = true := by
          cases hc : x.capStrRecord with
          | none => simp [hc, isSellTransactionPending] at hpend
          | some r => simp
        have hxW : x ∈ (m :: rest).filter (fun s => s.capStrRecord.isSome) :=
          List.mem_filter.mpr ⟨hx, hsome⟩
        have hfound : (((m :: rest).filter (fun s => s.capStrRecord.isSome)).find?
            (fun s => isSellTransactionPending s.capStrRecord)).isSome :=
          List.find?_isSome.mpr ⟨x, hxW, hpend⟩
        obtain ⟨y, hy⟩ := Option.isSome_iff_exists.mp hfound
        refine ⟨y, ?_, ?_, ?_⟩
        · simp only [hy]
        · simpa using List.find?_some hy
        · exact (List.mem_filter.mp (List.mem_of_find?_eq_some hy)).1
      · intro hnone hsome
        have hfind : ((m :: rest).filter (fun s => s.capStrRecord.isSome)).find?
            (fun s => isSellTransactionPending s.capStrRecord) = none := by
          refine List.find?_eq_none.mpr ?_
          intro x hxW
          have hx := hnone x (List.mem_filter.mp hxW).1
          simp [hx]
        obtain ⟨x, hx, hxs⟩ := hsome
        have hxW : x ∈ (m :: rest).filter (fun s => s.capStrRecord.isSome) :=
          List.mem_filter.mpr ⟨hx, hxs⟩
        cases hW : (m :: rest).filter (fun s => s.capStrRecord.isSome) with
        | nil =>
            rw [hW] at hxW
            simp at hxW
        | cons c cs =>
            have hcW : c ∈ (m :: rest).filter (fun s => s.capStrRecord.isSome) := by
              rw [hW]
              exact List.mem_cons_self c cs
            rw [hW] at hfind
            refine ⟨c, ?_, (List.mem_filter.mp hcW).2, (List.mem_filter.mp hcW).1⟩
            simp only [hW, hfind]
      · intro hall
        have hWnil : (m :: rest).filter (fun s => s.capStrRecord.isSome) = [] := by
          refine List.filter_eq_nil_iff.mpr ?_
          intro a ha
          simp [hall a ha]
        simp only [hWnil, List.find?_nil, List.head?_cons]

/-- C9 witness: on the two-item fixture sharing gift number 7, the lookup
returns the item whose cap record has the pending sell transaction. -/
theorem C9_witness :
    (∃ m, findCapByGiftNumber storeC9 7 = some m ∧
      isSellTransactionPending m.capStrRecord = true ∧ m ∈ matchesOf storeC9 7) ∧
    findCapByGiftNumber storeC9 7 = some storedA :=
  ⟨(C9_numeric_id_tiebreak storeC9 7).1 (by decide), rfl⟩

/-- Oracle fixture whose create calls succeed with records carrying an id. -/
def oracleC3 : LedgerOracle where
  buyCreate := .ok (Json.obj [("id", Json.num 1)])
  capCreate := .ok (Json.obj [("id", Json.num 2)])
  sellCreate := .ok Json.null
  soldPatch := .ok Json.null

/-- A published item that already carries a sale time. -/
def storeC3 : Store :=
  [("X", { sampleStored "X" CapState.PUBLISHED with
            item := { sampleCap "X" with saleTime := some (some 1700000000000) } })]

/-- C3 counterexample: a PUBLISHED item that carries a sale time is APPROVED
by the first Approve, but the second Approve moves it on to APPROVED_SOLD
instead of leaving it in APPROVED as the claim requires. -/
theorem C3_counterexample :
    (storeGet (approveCap 0 oracleC3 storeC3 "X").1 "X").map (·.state) =
      some CapState.APPROVED ∧
    (storeGet (approveCap 0 oracleC3 (approveCap 0 oracleC3 storeC3 "X").1 "X").1
        "X").map (·.state) = some CapState.APPROVED_SOLD ∧
    CapState.APPROVED_SOLD ≠ CapState.APPROVED :=
  ⟨rfl, rfl, by decide⟩

/-- C3 (amended): for a stored PUBLISHED item with no ledger records yet (as
every freshly published item has) and no sale time set, approving twice in
succession creates exactly one buy transaction record and one cap record —
the second approval performs no POSTs at all — and the item is APPROVED
after each of the two approvals. When the item carries a sale time, the
second approval instead moves it to APPROVED_SOLD. -/
theorem C3_idempotent_approval
    (now1 now2 : Int) (oracle1 oracle2 : LedgerOracle) (store : Store)
    (address : String) (stored : StoredCap)
    (hget : storeGet store address = some stored)
    (hstate : stored.state = CapState.PUBLISHED)
    (hbuy : stored.buyTransactionRecord = none)
    (hcap : stored.capStrRecord = none)
    (htime : saleTimeIsSet stored.item.saleTime = false)
    (r1 : Json) (hc1 : oracle1.buyCreate = Except.ok r1)
    (bid : Ident) (hid : extractIdentifier (some r1) idKeys = some bid)
    (r2 : Json) (hc2 : oracle1.capCreate = Except.ok r2) :
    (approveCap now1 oracle1 store address).2.2 = Except.ok () ∧
    (storeGet (approveCap now1 oracle1 store address).1 address).map (·.state) =
      some CapState.APPROVED ∧
    (approveCap now2 oracle2 (approveCap now1 oracle1 store address).1
        address).2.2 = Except.ok () ∧
    (storeGet (approveCap now2 oracle2 (approveCap now1 oracle1 store address).1
        address).1 address).map (·.state) = some CapState.APPROVED ∧
    (approveCap now2 oracle2 (approveCap now1 oracle1 store address).1
        address).2.1 = [] ∧
    (((approveCap now1 oracle1 store address).2.1 ++
        (approveCap now2 oracle2 (approveCap now1 oracle1 store address).1
          address).2.1).filter isBuyCreate).length = 1 ∧
    (((approveCap now1 oracle1 store address).2.1 ++
        (approveCap now2 oracle2 (approveCap now1 oracle1 store address).1
          address).2.1).filter isCapCreate).length = 1 := by
  have e1 : approveCap now1 oracle1 store address =
      (storeSet store address
          { stored with buyTransactionRecord := some r1,
                        capStrRecord := some r2,
                        state := CapState.APPROVED },
        [LedgerPost.buyCreate stored.item,
         LedgerPost.capCreate stored.item CapState.APPROVED bid],
        Except.ok ()) := by
    unfold approveCap ensureBuyThen ensureCapThen approveFinish
    rw [hget]
    simp [hstate, hbuy, hcap, hc1, hid, hc2]
  have g1 : storeGet (approveCap now1 oracle1 store address).1 address =
      some { stored with buyTransactionRecord := some r1,
                         capStrRecord := some r2,
                         state := CapState.APPROVED } := by
    rw [e1]
    exact storeGet_storeSet_self _ _ _
  have s1 : (approveCap now1 oracle1 store address).1 =
      storeSet store address
        { stored with buyTransactionRecord := some r1,
                      capStrRecord := some r2,
                      state := CapState.APPROVED } := by
    rw [e1]
  have e2 : approveCap now2 oracle2 (approveCap now1 oracle1 store address).1
      address =
      (storeSet (approveCap now1 oracle1 store address).1 address
          { stored with buyTransactionRecord := some r1,
                        capStrRecord := some r2,
                        state := CapState.APPROVED },
        [], Except.ok ()) := by
    rw [s1]
    unfold approveCap ensureBuyThen ensureCapThen approveFinish
    rw [storeGet_storeSet_self]
    simp [htime, hid]
  have g2 : storeGet (approveCap now2 oracle2
      (approveCap now1 oracle1 store address).1 address).1 address =
      some { stored with buyTransactionRecord := some r1,
                         capStrRecord := some r2,
                         state := CapState.APPROVED } := by
    rw [e2]
    exact storeGet_storeSet_self _ _ _
  refine ⟨by rw [e1], by rw [g1]; rfl, by rw [e2], by rw [g2]; rfl, by rw [e2],
    ?_, ?_⟩
  · rw [e2, e1]
    simp [isBuyCreate, isCapCreate]
  · rw [e2, e1]
    simp [isBuyCreate, isCapCreate]

/-- C3 witness: the amended statement on a concrete PUBLISHED item with no
sale time, using the successful oracle fixture for the first call and an
all-failing oracle for the second call, which shows the second call posts
nothing even when the backend would fail. -/
theorem C3_witness :
    (approveCap 0 oracleC3 [("X", sampleStored "X" CapState.PUBLISHED)]
        "X").2.2 = Except.ok () ∧
    (storeGet (approveCap 0 oracleC3
        [("X", sampleStored "X" CapState.PUBLISHED)] "X").1 "X").map (·.state) =
      some CapState.APPROVED ∧
    (approveCap 1 ⟨.error "down", .error "down", .error "down", .error "down"⟩
        (approveCap 0 oracleC3 [("X", sampleStored "X" CapState.PUBLISHED)]
          "X").1 "X").2.2 = Except.ok () ∧
    (storeGet (approveCap 1
        ⟨.error "down", .error "down", .error "down", .error "down"⟩
        (approveCap 0 oracleC3 [("X", sampleStored "X" CapState.PUBLISHED)]
          "X").1 "X").1 "X").map (·.state) = some CapState.APPROVED ∧
    (approveCap 1 ⟨.error "down", .error "down", .error "down", .error "down"⟩
        (approveCap 0 oracleC3 [("X", sampleStored "X" CapState.PUBLISHED)]
          "X").1 "X").2.1 = [] ∧
    (((approveCap 0 oracleC3 [("X", sampleStored "X" CapState.PUBLISHED)]
          "X").2.1 ++
        (approveCap 1 ⟨.error "down", .error "down", .error "down", .error "down"⟩
          (approveCap 0 oracleC3 [("X", sampleStored "X" CapState.PUBLISHED)]
            "X").1 "X").2.1).filter isBuyCreate).length = 1 ∧
    (((approveCap 0 oracleC3 [("X", sampleStored "X" CapState.PUBLISHED)]
          "X").2.1 ++
        (approveCap 1 ⟨.error "down", .error "down", .error "down", .error "down"⟩
          (approveCap 0 oracleC3 [("X", sampleStored "X" CapState.PUBLISHED)]
            "X").1 "X").2.1).filter isCapCreate).length = 1 :=
  C3_idempotent_approval 0 1 oracleC3
    ⟨.error "down", .error "down", .error "down", .error "down"⟩
    [("X", sampleStored "X" CapState.PUBLISHED)] "X"
    (sampleStored "X" CapState.PUBLISHED) rfl rfl rfl rfl rfl
    (Json.obj [("id", Json.num 1)]) rfl (Ident.num 1) rfl
    (Json.obj [("id", Json.num 2)]) rfl

theorem recordsMono_refl (a : StoredCap) : RecordsMono a a :=
  ⟨fun _ h => h, fun _ h => h, fun _ h => h⟩

/-- approveSoldFinish either succeeds, storing the sold record and the
SOLD_APPROVED state, or fails leaving exactly the stored value it was
handed. -/
theorem approveSoldFinish_split (oracle : LedgerOracle) (store : Store)
    (address : String) (stored1 : StoredCap) (cap : CapSummary)
    (pn t : Int) (posts : List LedgerPost) :
    ((approveSoldFinish oracle store address stored1 cap pn t posts).2.2 =
        Except.ok () ∧
      ∃ sold, (approveSoldFinish oracle store address stored1 cap pn t posts).1 =
        storeSet store address
          { stored1 with capStrRecord := some sold,
                         state := CapState.SOLD_APPROVED }) ∨
    ((∃ e, (approveSoldFinish oracle store address stored1 cap pn t posts).2.2 =
        Except.error e) ∧
      (approveSoldFinish oracle store address stored1 cap pn t posts).1 =
        storeSet store address stored1) := by
  unfold approveSoldFinish
  split
  · exact Or.inr ⟨⟨_, rfl⟩, rfl⟩
  · split
    · exact Or.inr ⟨⟨_, rfl⟩, rfl⟩
    · split
      · exact Or.inr ⟨⟨_, rfl⟩, rfl⟩
      · exact Or.inl ⟨rfl, _, rfl⟩

/-- approveSoldEnsure either succeeds, or leaves the store as it was, or
re-stores the unchanged value, or stores the value extended with the newly
created sell record. -/
theorem approveSoldEnsure_split (oracle : LedgerOracle) (store : Store)
    (address : String) (stored : StoredCap) (cap : CapSummary) (pn t : Int) :
    ((approveSoldEnsure oracle store address stored cap pn t).2.2 =
      Except.ok ()) ∨
    (approveSoldEnsure oracle store address stored cap pn t).1 = store ∨
    (approveSoldEnsure oracle store address stored cap pn t).1 =
      storeSet store address stored ∨
    ∃ r, stored.sellTransactionRecord = none ∧
      (approveSoldEnsure oracle store address stored cap pn t).1 =
        storeSet store address { stored with sellTransactionRecord := some r } := by
  unfold approveSoldEnsure
  split
  · rename_i hnone
    split
    · exact Or.inr (Or.inl rfl)
    · rcases approveSoldFinish_split oracle store address
          { stored with sellTransactionRecord := some _ } cap pn t
          [LedgerPost.sellCreate cap t] with ⟨hok, -⟩ | ⟨-, h1⟩
      · exact Or.inl hok
      · exact Or.inr (Or.inr (Or.inr ⟨_, hnone, h1⟩))
  · rcases approveSoldFinish_split oracle store address stored cap pn t []
        with ⟨hok, -⟩ | ⟨-, h1⟩
    · exact Or.inl hok
    · exact Or.inr (Or.inr (Or.inl h1))

/-- ensureCapThen either ends the approval successfully or stores exactly
the value it was handed. -/
theorem ensureCapThen_split (oracle : LedgerOracle) (store : Store)
    (address : String) (stored1 : StoredCap) (cap : CapSummary)
    (posts : List LedgerPost) :
    ((ensureCapThen oracle store address stored1 cap posts).2.2 =
      Except.ok ()) ∨
    (ensureCapThen oracle store address stored1 cap posts).1 =
      storeSet store address stored1 := by
  unfold ensureCapThen approveFinish
  split
  · exact Or.inr rfl
  · split
    · split
      · exact Or.inr rfl
      · exact Or.inl rfl
    · exact Or.inl rfl

/-- ensureBuyThen either succeeds, or leaves the store untouched, or stores
the unchanged value, or stores the value extended with the newly created
buy record. -/
theorem ensureBuyThen_split (oracle : LedgerOracle) (store : Store)
    (address : String) (stored : StoredCap) (cap : CapSummary) :
    ((ensureBuyThen oracle store address stored cap).2.2 = Except.ok ()) ∨
    (ensureBuyThen oracle store address stored cap).1 = store ∨
    (ensureBuyThen oracle store address stored cap).1 =
      storeSet store address stored ∨
    ∃ r, stored.buyTransactionRecord = none ∧
      (ensureBuyThen oracle store address stored cap).1 =
        storeSet store address { stored with buyTransactionRecord := some r } := by
  unfold ensureBuyThen
  split
  · rename_i hnone
    split
    · exact Or.inr (Or.inl rfl)
    · rcases ensureCapThen_split oracle store address
          { stored with buyTransactionRecord := some _ } cap
          [LedgerPost.buyCreate cap] with hok | h1
      · exact Or.inl hok
      · exact Or.inr (Or.inr (Or.inr ⟨_, hnone, h1⟩))
  · rcases ensureCapThen_split oracle store address stored cap []
        with hok | h1
    · exact Or.inl hok
    · exact Or.inr (Or.inr (Or.inl h1))

/-- Every post ensureCapThen emits beyond the ones it was handed is a cap
record creation. -/
theorem ensureCapThen_posts_sub (oracle : LedgerOracle) (store : Store)
    (address : String) (stored1 : StoredCap) (cap : CapSummary)
    (posts : List LedgerPost) (p : LedgerPost)
    (h : p ∈ (ensureCapThen oracle store address stored1 cap posts).2.1) :
    p ∈ posts ∨ isCapCreate p = true := by
  unfold ensureCapThen approveFinish at h
  split at h
  · exact Or.inl h
  · split at h
    · split at h
      all_goals
        rcases List.mem_append.mp h with h1 | h2
        · exact Or.inl h1
        · right
          rw [List.mem_singleton.mp h2]
          rfl
    · exact Or.inl h

/-- Every post approveSoldFinish emits beyond the ones it was handed is a
markSold call. -/
theorem approveSoldFinish_posts_sub (oracle : LedgerOracle) (store : Store)
    (address : String) (stored1 : StoredCap) (cap : CapSummary) (pn t : Int)
    (posts : List LedgerPost) (p : LedgerPost)
    (h : p ∈ (approveSoldFinish oracle store address stored1 cap pn t posts).2.1) :
    p ∈ posts ∨ isMarkSold p = true := by
  unfold approveSoldFinish at h
  split at h
  · exact Or.inl h
  · split at h
    · exact Or.inl h
    · split at h
      all_goals
        rcases List.mem_append.mp h with h1 | h2
        · exact Or.inl h1
        · right
          rw [List.mem_singleton.mp h2]
          rfl

/-- A post of ensureBuyThen is either the buy creation for the handled cap,
emitted only when no buy record was stored yet, or a cap record creation. -/
theorem ensureBuyThen_posts_sub (oracle : LedgerOracle) (store : Store)
    (address : String) (stored : StoredCap) (cap : CapSummary) (p : LedgerPost)
    (h : p ∈ (ensureBuyThen oracle store address stored cap).2.1) :
    (p = LedgerPost.buyCreate cap ∧ stored.buyTransactionRecord = none) ∨
    isCapCreate p = true := by
  unfold ensureBuyThen at h
  split at h
  · rename_i hb
    split at h
    · exact Or.inl ⟨List.mem_singleton.mp h, hb⟩
    · rcases ensureCapThen_posts_sub _ _ _ _ _ _ _ h with h1 | h2
      · exact Or.inl ⟨List.mem_singleton.mp h1, hb⟩
      · exact Or.inr h2
  · rcases ensureCapThen_posts_sub _ _ _ _ _ _ _ h with h1 | h2
    · simp at h1
    · exact Or.inr h2

/-- A post of approveSoldEnsure is either the sell creation for the handled
cap, emitted only when no sell record was stored yet, or a markSold call. -/
theorem approveSoldEnsure_posts_sub (oracle : LedgerOracle) (store : Store)
    (address : String) (stored : StoredCap) (cap : CapSummary) (pn t : Int)
    (p : LedgerPost)
    (h : p ∈ (approveSoldEnsure oracle store address stored cap pn t).2.1) :
    (p = LedgerPost.sellCreate cap t ∧ stored.sellTransactionRecord = none) ∨
    isMarkSold p = true := by
  unfold approveSoldEnsure at h
  split at h
  · rename_i hs
    split at h
    · exact Or.inl ⟨List.mem_singleton.mp h, hs⟩
    · rcases approveSoldFinish_posts_sub _ _ _ _ _ _ _ _ _ h with h1 | h2
      · exact Or.inl ⟨List.mem_singleton.mp h1, hs⟩
      · exact Or.inr h2
  · rcases approveSoldFinish_posts_sub _ _ _ _ _ _ _ _ _ h with h1 | h2
    · simp at h1
    · exact Or.inr h2

/-- Every post of an approveCap run concerns the stored item of the handled
address, and a buy or sell creation is only ever posted when the respective
record was absent when the run started. -/
theorem approveCap_posts_create (now : Int) (oracle : LedgerOracle)
    (store : Store) (address : String) (p : LedgerPost)
    (h : p ∈ (approveCap now oracle store address).2.1) :
    ∃ stored, storeGet store address = some stored ∧
      ((p = LedgerPost.buyCreate stored.item ∧
          stored.buyTransactionRecord = none) ∨
        (p = LedgerPost.sellCreate stored.item (resolvedSaleTime now stored.item) ∧
          stored.sellTransactionRecord = none) ∨
        isCapCreate p = true ∨ isMarkSold p = true) := by
  cases hget : storeGet store address with
  | none =>
      have hE : approveCap now oracle store address =
          (store, [], .error ("Cap " ++ address ++ " not found for approval")) := by
        unfold approveCap
        rw [hget]
      rw [hE] at h
      simp at h
  | some stored =>
      refine ⟨stored, rfl, ?_⟩
      cases hst : stored.state
      case SOLD_APPROVED =>
          have hE : approveCap now oracle store address = (store, [], .ok ()) := by
            unfold approveCap
            rw [hget]
            simp [hst]
          rw [hE] at h
          simp at h
      case SOLD_PUBLISHED | SOLD_REJECTED | APPROVED_SOLD =>
          by_cases hpn : tonToNano stored.item.salePriceTon = 0
          · have hE : approveCap now oracle store address =
                (store, [],
                  .error ("Sale price unavailable for " ++
                    stored.item.offchainGetgemsAddress ++
                    "; cannot approve sale")) := by
              unfold approveCap
              rw [hget]
              simp [hst, hpn]
            rw [hE] at h
            simp at h
          · have hE : approveCap now oracle store address =
                approveSoldEnsure oracle store address stored stored.item
                  (tonToNano stored.item.salePriceTon)
                  (resolvedSaleTime now stored.item) := by
              unfold approveCap
              rw [hget]
              simp [hst, hpn]
            rw [hE] at h
            rcases approveSoldEnsure_posts_sub _ _ _ _ _ _ _ _ h with ⟨h1, h2⟩ | h3
            · exact Or.inr (Or.inl ⟨h1, h2⟩)
            · exact Or.inr (Or.inr (Or.inr h3))
      case APPROVED | REJECTED =>
          by_cases hts : saleTimeIsSet stored.item.saleTime = true
          · have hE : approveCap now oracle store address =
                (storeSet store address
                  { stored with state := CapState.APPROVED_SOLD }, [],
                  .ok ()) := by
              unfold approveCap
              rw [hget]
              simp [hst, hts]
            rw [hE] at h
            simp at h
          · have hE : approveCap now oracle store address =
                ensureBuyThen oracle store address stored stored.item := by
              unfold approveCap
              rw [hget]
              simp [hst, hts]
            rw [hE] at h
            rcases ensureBuyThen_posts_sub _ _ _ _ _ _ h with ⟨h1, h2⟩ | h3
            · exact Or.inl ⟨h1, h2⟩
            · exact Or.inr (Or.inr (Or.inl h3))
      case PUBLISHED | PARTIAL_PUBLISHED =>
          have hE : approveCap now oracle store address =
              ensureBuyThen oracle store address stored stored.item := by
            unfold approveCap
            rw [hget]
            simp [hst]
          rw [hE] at h
          rcases ensureBuyThen_posts_sub _ _ _ _ _ _ h with ⟨h1, h2⟩ | h3
          · exact Or.inl ⟨h1, h2⟩
          · exact Or.inr (Or.inr (Or.inl h3))

/-- An approveCap run on a store whose stored item already has a buy or
sell transaction record never posts the corresponding creation again: the
presence check is the idempotence guard a retry relies on. -/
theorem approveCap_skips_present_records (store2 : Store) (address : String)
    (stored1 : StoredCap)
    (hg : storeGet store2 address = some stored1) :
    (stored1.buyTransactionRecord.isSome = true →
      ∀ now2 oracle2 c, LedgerPost.buyCreate c ∉
        (approveCap now2 oracle2 store2 address).2.1) ∧
    (stored1.sellTransactionRecord.isSome = true →
      ∀ now2 oracle2 c t, LedgerPost.sellCreate c t ∉
        (approveCap now2 oracle2 store2 address).2.1) := by
  constructor
  · intro hb now2 oracle2 c hmem
    obtain ⟨stored', hg', hcase⟩ :=
      approveCap_posts_create now2 oracle2 store2 address _ hmem
    rw [hg] at hg'
    injection hg' with hg''
    subst hg''
    rcases hcase with ⟨-, hnone⟩ | ⟨heq, -⟩ | hcap | hms
    · rw [hnone] at hb
      simp at hb
    · cases heq
    · simp [isCapCreate] at hcap
    · simp [isMarkSold] at hms
  · intro hs now2 oracle2 c t hmem
    obtain ⟨stored', hg', hcase⟩ :=
      approveCap_posts_create now2 oracle2 store2 address _ hmem
    rw [hg] at hg'
    injection hg' with hg''
    subst hg''
    rcases hcase with ⟨heq, -⟩ | ⟨-, hnone⟩ | hcap | hms
    · cases heq
    · rw [hnone] at hs
      simp at hs
    · simp [isCapCreate] at hcap
    · simp [isMarkSold] at hms

/-- A failing ensureBuyThen run keeps the state and the cap and sell
records of the stored value, keeps a pre-existing buy record, and stores
the buy record a successful create returned before the failure. -/
theorem ensureBuyThen_err_strong (oracle : LedgerOracle) (store : Store)
    (address : String) (stored : StoredCap) (cap : CapSummary) (e : String)
    (hget : storeGet store address = some stored)
    (herr : (ensureBuyThen oracle store address stored cap).2.2 =
      Except.error e) :
    ∃ stored1, storeGet (ensureBuyThen oracle store address stored cap).1
        address = some stored1 ∧
      stored1.state = stored.state ∧
      stored1.capStrRecord = stored.capStrRecord ∧
      stored1.sellTransactionRecord = stored.sellTransactionRecord ∧
      (∀ r, stored.buyTransactionRecord = some r →
        stored1.buyTransactionRecord = some r) ∧
      (∀ r, oracle.buyCreate = Except.ok r →
        stored.buyTransactionRecord = none →
        stored1.buyTransactionRecord = some r) := by
  cases hb : stored.buyTransactionRecord with
  | none =>
      cases hc : oracle.buyCreate with
      | error msg =>
          have hE : ensureBuyThen oracle store address stored cap =
              (store, [LedgerPost.buyCreate cap], Except.error msg) := by
            unfold ensureBuyThen
            rw [hb, hc]
          rw [hE]
          refine ⟨stored, hget, rfl, rfl, rfl, ?_, ?_⟩
          · intro r hr
            cases hr
          · intro r hr _
            cases hr
      | ok r =>
          have hE : ensureBuyThen oracle store address stored cap =
              ensureCapThen oracle store address
                { stored with buyTransactionRecord := some r } cap
                [LedgerPost.buyCreate cap] := by
            unfold ensureBuyThen
            rw [hb, hc]
          rw [hE] at herr ⊢
          rcases ensureCapThen_split oracle store address
              { stored with buyTransactionRecord := some r } cap
              [LedgerPost.buyCreate cap] with hok | h1
          · rw [hok] at herr
            simp at herr
          · refine ⟨{ stored with buyTransactionRecord := some r },
              by rw [h1]; exact storeGet_storeSet_self _ _ _,
              rfl, rfl, rfl, ?_, ?_⟩
            · intro r' hr'
              cases hr'
            · intro r' hr' _
              injection hr' with hrr
              rw [hrr]
  | some r0 =>
      have hE : ensureBuyThen oracle store address stored cap =
          ensureCapThen oracle store address stored cap [] := by
        unfold ensureBuyThen
        rw [hb]
      rw [hE] at herr ⊢
      rcases ensureCapThen_split oracle store address stored cap [] with hok | h1
      · rw [hok] at herr
        simp at herr
      · refine ⟨stored, by rw [h1]; exact storeGet_storeSet_self _ _ _,
          rfl, rfl, rfl, ?_, ?_⟩
        · intro r hr
          rw [hb]
          exact hr
        · intro r _ hnone
          cases hnone

/-- A failing approveSoldEnsure run keeps the state and the buy and cap
records of the stored value, keeps a pre-existing sell record, and stores
the sell record a successful create returned before the failure. -/
theorem approveSoldEnsure_err_strong (oracle : LedgerOracle) (store : Store)
    (address : String) (stored : StoredCap) (cap : CapSummary) (pn t : Int)
    (e : String)
    (hget : storeGet store address = some stored)
    (herr : (approveSoldEnsure oracle store address stored cap pn t).2.2 =
      Except.error e) :
    ∃ stored1, storeGet (approveSoldEnsure oracle store address stored cap pn t).1
        address = some stored1 ∧
      stored1.state = stored.state ∧
      stored1.capStrRecord = stored.capStrRecord ∧
      stored1.buyTransactionRecord = stored.buyTransactionRecord ∧
      (∀ r, stored.sellTransactionRecord = some r →
        stored1.sellTransactionRecord = some r) ∧
      (∀ r, oracle.sellCreate = Except.ok r →
        stored.sellTransactionRecord = none →
        stored1.sellTransactionRecord = some r) := by
  cases hs : stored.sellTransactionRecord with
  | none =>
      cases hc : oracle.sellCreate with
      | error msg =>
          have hE : approveSoldEnsure oracle store address stored cap pn t =
              (store, [LedgerPost.sellCreate cap t], Except.error msg) := by
            unfold approveSoldEnsure
            rw [hs, hc]
          rw [hE]
          refine ⟨stored, hget, rfl, rfl, rfl, ?_, ?_⟩
          · intro r hr
            cases hr
          · intro r hr _
            cases hr
      | ok r =>
          have hE : approveSoldEnsure oracle store address stored cap pn t =
              approveSoldFinish oracle store address
                { stored with sellTransactionRecord := some r } cap pn t
                [LedgerPost.sellCreate cap t] := by
            unfold approveSoldEnsure
            rw [hs, hc]
          rw [hE] at herr ⊢
          rcases approveSoldFinish_split oracle store address
              { stored with sellTransactionRecord := some r } cap pn t
              [LedgerPost.sellCreate cap t] with ⟨hok, -⟩ | ⟨-, h1⟩
          · rw [hok] at herr
            simp at herr
          · refine ⟨{ stored with sellTransactionRecord := some r },
              by rw [h1]; exact storeGet_storeSet_self _ _ _,
              rfl, rfl, rfl, ?_, ?_⟩
            · intro r' hr'
              cases hr'
            · intro r' hr' _
              injection hr' with hrr
              rw [hrr]
  | some r0 =>
      have hE : approveSoldEnsure oracle store address stored cap pn t =
          approveSoldFinish oracle store address stored cap pn t [] := by
        unfold approveSoldEnsure
        rw [hs]
      rw [hE] at herr ⊢
      rcases approveSoldFinish_split oracle store address stored cap pn t []
          with ⟨hok, -⟩ | ⟨-, h1⟩
      · rw [hok] at herr
        simp at herr
      · refine ⟨stored, by rw [h1]; exact storeGet_storeSet_self _ _ _,
          rfl, rfl, rfl, ?_, ?_⟩
        · intro r hr
          rw [hs]
          exact hr
        · intro r _ hnone
          cases hnone

/-- C7: whenever an approval run ends in a thrown error, the item state it
leaves behind equals the state from before the run; every ledger record
stored before the run is still stored; every record a successful ledger
create returned during the failing run is stored as well; and any later
approval run on the resulting store performs no buy or sell creation for a
record that is present — the retry skips the already-created records. -/
theorem C7_ledger_failure_atomicity (now : Int) (oracle : LedgerOracle)
    (store : Store) (address : String) (e : String)
    (herr : (approveCap now oracle store address).2.2 = Except.error e) :
    ((approveCap now oracle store address).1 = store ∧
      storeGet store address = none) ∨
    ∃ stored stored1, storeGet store address = some stored ∧
      storeGet (approveCap now oracle store address).1 address = some stored1 ∧
      stored1.state = stored.state ∧
      RecordsMono stored stored1 ∧
      (∀ r, oracle.buyCreate = Except.ok r →
        LedgerPost.buyCreate stored.item ∈
          (approveCap now oracle store address).2.1 →
        stored1.buyTransactionRecord = some r) ∧
      (∀ r t, oracle.sellCreate = Except.ok r →
        LedgerPost.sellCreate stored.item t ∈
          (approveCap now oracle store address).2.1 →
        stored1.sellTransactionRecord = some r) ∧
      (stored1.buyTransactionRecord.isSome = true →
        ∀ now2 oracle2 c, LedgerPost.buyCreate c ∉
          (approveCap now2 oracle2 (approveCap now oracle store address).1
            address).2.1) ∧
      (stored1.sellTransactionRecord.isSome = true →
        ∀ now2 oracle2 c t, LedgerPost.sellCreate c t ∉
          (approveCap now2 oracle2 (approveCap now oracle store address).1
            address).2.1) := by
  cases hget : storeGet store address with
  | none =>
      left
      refine ⟨?_, rfl⟩
      unfold approveCap
      rw [hget]
  | some stored =>
      right
      cases hst : stored.state
      case SOLD_APPROVED =>
          have hE : approveCap now oracle store address = (store, [], .ok ()) := by
            unfold approveCap
            rw [hget]
            simp [hst]
          rw [hE] at herr
          simp at herr
      case SOLD_PUBLISHED | SOLD_REJECTED | APPROVED_SOLD =>
          by_cases hpn : tonToNano stored.item.salePriceTon = 0
          · have hE : approveCap now oracle store address =
                (store, [],
                  .error ("Sale price unavailable for " ++
                    stored.item.offchainGetgemsAddress ++
                    "; cannot approve sale")) := by
              unfold approveCap
              rw [hget]
              simp [hst, hpn]
            have hg1 : storeGet (approveCap now oracle store address).1 address =
                some stored := by
              rw [hE]
              exact hget
            refine ⟨stored, stored, rfl, hg1, rfl, recordsMono_refl stored,
              ?_, ?_,
              (approveCap_skips_present_records _ _ _ hg1).1,
              (approveCap_skips_present_records _ _ _ hg1).2⟩
            · intro r _ hmem
              rw [hE] at hmem
              simp at hmem
            · intro r t _ hmem
              rw [hE] at hmem
              simp at hmem
          · have hE : approveCap now oracle store address =
                approveSoldEnsure oracle store address stored stored.item
                  (tonToNano stored.item.salePriceTon)
                  (resolvedSaleTime now stored.item) := by
              unfold approveCap
              rw [hget]
              simp [hst, hpn]
            rw [hE] at herr
            obtain ⟨stored1, hg, hstEq, hcapEq, hbuyEq, hsellMono, hsellNew⟩ :=
              approveSoldEnsure_err_strong oracle store address stored
                stored.item (tonToNano stored.item.salePriceTon)
                (resolvedSaleTime now stored.item) e hget herr
            have hg1 : storeGet (approveCap now oracle store address).1 address =
                some stored1 := by
              rw [hE]
              exact hg
            refine ⟨stored, stored1, rfl, hg1, hstEq,
              ⟨?_, ?_, hsellMono⟩, ?_, ?_,
              (approveCap_skips_present_records _ _ _ hg1).1,
              (approveCap_skips_present_records _ _ _ hg1).2⟩
            · intro r hr
              rw [hbuyEq]
              exact hr
            · intro r hr
              rw [hcapEq]
              exact hr
            · intro r _ hmem
              rw [hE] at hmem
              rcases approveSoldEnsure_posts_sub _ _ _ _ _ _ _ _ hmem
                  with ⟨h1, -⟩ | h2
              · cases h1
              · simp [isMarkSold] at h2
            · intro r t hr hmem
              rw [hE] at hmem
              rcases approveSoldEnsure_posts_sub _ _ _ _ _ _ _ _ hmem
                  with ⟨-, h2⟩ | h3
              · exact hsellNew r hr h2
              · simp [isMarkSold] at h3
      case APPROVED | REJECTED =>
          by_cases hts : saleTimeIsSet stored.item.saleTime = true
          · have hE : approveCap now oracle store address =
                (storeSet store address
                  { stored with state := CapState.APPROVED_SOLD }, [],
                  .ok ()) := by
              unfold approveCap
              rw [hget]
              simp [hst, hts]
            rw [hE] at herr
            simp at herr
          · have hE : approveCap now oracle store address =
                ensureBuyThen oracle store address stored stored.item := by
              unfold approveCap
              rw [hget]
              simp [hst, hts]
            rw [hE] at herr
            obtain ⟨stored1, hg, hstEq, hcapEq, hsellEq, hbuyMono, hbuyNew⟩ :=
              ensureBuyThen_err_strong oracle store address stored stored.item
                e hget herr
            have hg1 : storeGet (approveCap now oracle store address).1 address =
                some stored1 := by
              rw [hE]
              exact hg
            refine ⟨stored, stored1, rfl, hg1, hstEq,
              ⟨hbuyMono, ?_, ?_⟩, ?_, ?_,
              (approveCap_skips_present_records _ _ _ hg1).1,
              (approveCap_skips_present_records _ _ _ hg1).2⟩
            · intro r hr
              rw [hcapEq]
              exact hr
            · intro r hr
              rw [hsellEq]
              exact hr
            · intro r hr hmem
              rw [hE] at hmem
              rcases ensureBuyThen_posts_sub _ _ _ _ _ _ hmem with ⟨-, h2⟩ | h3
              · exact hbuyNew r hr h2
              · simp [isCapCreate] at h3
            · intro r t _ hmem
              rw [hE] at hmem
              rcases ensureBuyThen_posts_sub _ _ _ _ _ _ hmem with ⟨h1, -⟩ | h3
              · cases h1
              · simp [isCapCreate] at h3
      case PUBLISHED | PARTIAL_PUBLISHED =>
          have hE : approveCap now oracle store address =
              ensureBuyThen oracle store address stored stored.item := by
            unfold approveCap
            rw [hget]
            simp [hst]
          rw [hE] at herr
          obtain ⟨stored1, hg, hstEq, hcapEq, hsellEq, hbuyMono, hbuyNew⟩ :=
            ensureBuyThen_err_strong oracle store address stored stored.item
              e hget herr
          have hg1 : storeGet (approveCap now oracle store address).1 address =
              some stored1 := by
            rw [hE]
            exact hg
          refine ⟨stored, stored1, rfl, hg1, hstEq,
            ⟨hbuyMono, ?_, ?_⟩, ?_, ?_,
            (approveCap_skips_present_records _ _ _ hg1).1,
            (approveCap_skips_present_records _ _ _ hg1).2⟩
          · intro r hr
            rw [hcapEq]
            exact hr
          · intro r hr
            rw [hsellEq]
            exact hr
          · intro r hr hmem
            rw [hE] at hmem
            rcases ensureBuyThen_posts_sub _ _ _ _ _ _ hmem with ⟨-, h2⟩ | h3
            · exact hbuyNew r hr h2
            · simp [isCapCreate] at h3
          · intro r t _ hmem
            rw [hE] at hmem
            rcases ensureBuyThen_posts_sub _ _ _ _ _ _ hmem with ⟨h1, -⟩ | h3
            · cases h1
            · simp [isCapCreate] at h3

/-- Oracle fixture for the canonical partial-failure scenario: the buy
creation succeeds with a record carrying id 9, the cap creation fails. -/
def oracleC7 : LedgerOracle where
  buyCreate := .ok (Json.obj [("id", Json.num 9)])
  capCreate := .error "cap create failed"
  sellCreate := .error "unused"
  soldPatch := .error "unused"

/-- C7 witness: a PUBLISHED item whose buy creation succeeds and whose cap
creation then fails keeps the freshly created buy record in the store —
shown concretely by the second conjunct — while the state stays PUBLISHED
per the applied theorem. -/
theorem C7_witness :
    (approveCap 0 oracleC7 [("X", sampleStored "X" CapState.PUBLISHED)]
        "X").2.2 = Except.error "cap create failed" ∧
    (storeGet (approveCap 0 oracleC7
        [("X", sampleStored "X" CapState.PUBLISHED)] "X").1 "X").map
      (·.buyTransactionRecord) = some (some (Json.obj [("id", Json.num 9)])) ∧
    (((approveCap 0 oracleC7 [("X", sampleStored "X" CapState.PUBLISHED)]
          "X").1 = [("X", sampleStored "X" CapState.PUBLISHED)] ∧
        storeGet [("X", sampleStored "X" CapState.PUBLISHED)] "X" = none) ∨
      ∃ stored stored1,
        storeGet [("X", sampleStored "X" CapState.PUBLISHED)] "X" =
          some stored ∧
        storeGet (approveCap 0 oracleC7
            [("X", sampleStored "X" CapState.PUBLISHED)] "X").1 "X" =
          some stored1 ∧
        stored1.state = stored.state ∧
        RecordsMono stored stored1 ∧
        (∀ r, oracleC7.buyCreate = Except.ok r →
          LedgerPost.buyCreate stored.item ∈
            (approveCap 0 oracleC7
              [("X", sampleStored "X" CapState.PUBLISHED)] "X").2.1 →
          stored1.buyTransactionRecord = some r) ∧
        (∀ r t, oracleC7.sellCreate = Except.ok r →
          LedgerPost.sellCreate stored.item t ∈
            (approveCap 0 oracleC7
              [("X", sampleStored "X" CapState.PUBLISHED)] "X").2.1 →
          stored1.sellTransactionRecord = some r) ∧
        (stored1.buyTransactionRecord.isSome = true →
          ∀ now2 oracle2 c, LedgerPost.buyCreate c ∉
            (approveCap now2 oracle2 (approveCap 0 oracleC7
              [("X", sampleStored "X" CapState.PUBLISHED)] "X").1
              "X").2.1) ∧
        (stored1.sellTransactionRecord.isSome = true →
          ∀ now2 oracle2 c t, LedgerPost.sellCreate c t ∉
            (approveCap now2 oracle2 (approveCap 0 oracleC7
              [("X", sampleStored "X" CapState.PUBLISHED)] "X").1
              "X").2.1)) :=
  ⟨rfl, rfl, C7_ledger_failure_atomicity 0 oracleC7
    [("X", sampleStored "X" CapState.PUBLISHED)] "X" "cap create failed" rfl⟩

/-- Fixture item for the sold-approval claims: a SOLD_PUBLISHED cap with a
sale price of 10 TON and a resolved sale time. -/
def storedC5 : StoredCap :=
  { sampleStored "X" CapState.SOLD_PUBLISHED with
      item := { sampleCap "X" with
                  salePriceTon := some ((10 : Int), (0 : Nat)),
                  saleTime := some (some 1700000000000) } }

/-- Oracle fixture for the sold approval: the sell creation succeeds with a
record carrying txId 3 and the sold patch succeeds. -/
def oracleC5 : LedgerOracle where
  buyCreate := .error "unused"
  capCreate := .error "unused"
  sellCreate := .ok (Json.obj [("txId", Json.num 3)])
  soldPatch := .ok (Json.obj [("ok", Json.bool true)])

/-- Fixture violating the claim preconditions only in the gift number:
giftId and capNumber are both missing. -/
def storedC5bad : StoredCap :=
  { storedC5 with
      item := { storedC5.item with giftId := none, capNumber := none } }

/-- C5 counterexample: an item satisfying all the preconditions the claim
states (SOLD_PUBLISHED, positive nano sale price, resolved sale time) but
with no gift number (giftId and capNumber both missing) makes Approve
throw; no markSold call happens and the state stays SOLD_PUBLISHED instead
of becoming SOLD_APPROVED. -/
theorem C5_counterexample :
    0 < tonToNano storedC5bad.item.salePriceTon ∧
    (approveCap 0 oracleC5 [("X", storedC5bad)] "X").2.2 =
      Except.error "Gift number unavailable for X; cannot approve sale" ∧
    (storeGet (approveCap 0 oracleC5 [("X", storedC5bad)] "X").1 "X").map
      (·.state) = some CapState.SOLD_PUBLISHED ∧
    ((approveCap 0 oracleC5 [("X", storedC5bad)] "X").2.1.filter isMarkSold) =
      [] :=
  ⟨by decide, rfl, rfl, rfl⟩

/-- C5 (amended): for a stored item in SOLD_PUBLISHED, SOLD_REJECTED or
APPROVED_SOLD whose sale price converts to a positive nano amount, whose
gift number (giftId, falling back to capNumber) is present, and whose sell
transaction record — the pre-existing one, or on its absence the one a
successful create returns — carries an extractable identifier, the Approve
action stores that record (created at most once: no creation happens when
one is already present), calls markSold with the gift number, the floor of
the decimal TON sale price times 10^9, the resolved sale time and the
record identifier, and sets the state to SOLD_APPROVED. -/
theorem C5_sold_approval (now : Int) (oracle : LedgerOracle) (store : Store)
    (address : String) (stored : StoredCap)
    (hget : storeGet store address = some stored)
    (hstate : stored.state = CapState.SOLD_PUBLISHED ∨
      stored.state = CapState.SOLD_REJECTED ∨
      stored.state = CapState.APPROVED_SOLD)
    (hprice : 0 < tonToNano stored.item.salePriceTon)
    (g : Int) (hgift : (stored.item.giftId <|> stored.item.capNumber) = some g)
    (r : Json) (hrec : effectiveSellRecord stored oracle = some r)
    (sid : Ident) (hsid : extractIdentifier (some r) idKeys = some sid)
    (sr : Json) (hsold : oracle.soldPatch = Except.ok sr) :
    (approveCap now oracle store address).2.2 = Except.ok () ∧
    (storeGet (approveCap now oracle store address).1 address).map (·.state) =
      some CapState.SOLD_APPROVED ∧
    (storeGet (approveCap now oracle store address).1 address).map
      (·.sellTransactionRecord) = some (some r) ∧
    ((approveCap now oracle store address).2.1.filter isMarkSold) =
      [LedgerPost.markSold g (tonToNano stored.item.salePriceTon)
        (resolvedSaleTime now stored.item) sid] ∧
    ((approveCap now oracle store address).2.1.filter isSellCreate).length =
      (if stored.sellTransactionRecord.isSome then 0 else 1) := by
  have hne : ¬ tonToNano stored.item.salePriceTon = 0 := by omega
  cases hs : stored.sellTransactionRecord with
  | none =>
      cases ho : oracle.sellCreate with
      | error msg =>
          rw [effectiveSellRecord, hs, ho] at hrec
          cases hrec
      | ok rc =>
          rw [effectiveSellRecord, hs, ho] at hrec
          have hrc : rc = r := by
            cases hrec
            rfl
          subst hrc
          have hA : approveCap now oracle store address =
              (storeSet store address
                { stored with sellTransactionRecord := some rc,
                              capStrRecord := some sr,
                              state := CapState.SOLD_APPROVED },
                [LedgerPost.sellCreate stored.item
                  (resolvedSaleTime now stored.item),
                 LedgerPost.markSold g (tonToNano stored.item.salePriceTon)
                  (resolvedSaleTime now stored.item) sid],
                Except.ok ()) := by
            unfold approveCap approveSoldEnsure approveSoldFinish
            rw [hget]
            rcases hstate with h | h | h <;>
              simp [h, hne, hs, ho, hsid, hgift, hsold]
          rw [hA]
          refine ⟨rfl, ?_, ?_, ?_, ?_⟩
          · rw [storeGet_storeSet_self]
            rfl
          · rw [storeGet_storeSet_self]
            rfl
          · simp [List.filter, isMarkSold]
          · simp [List.filter, isSellCreate, isMarkSold, hs]
  | some r0 =>
      rw [effectiveSellRecord, hs] at hrec
      have hr0 : r0 = r := by
        cases hrec
        rfl
      subst hr0
      have hA : approveCap now oracle store address =
          (storeSet store address
            { stored with capStrRecord := some sr,
                          state := CapState.SOLD_APPROVED },
            [LedgerPost.markSold g (tonToNano stored.item.salePriceTon)
              (resolvedSaleTime now stored.item) sid],
            Except.ok ()) := by
        unfold approveCap approveSoldEnsure approveSoldFinish
        rw [hget]
        rcases hstate with h | h | h <;>
          simp [h, hne, hs, hsid, hgift, hsold]
      rw [hA]
      refine ⟨rfl, ?_, ?_, ?_, ?_⟩
      · rw [storeGet_storeSet_self]
        rfl
      · rw [storeGet_storeSet_self]
        simp [hs]
      · simp [List.filter, isMarkSold]
      · simp [List.filter, isSellCreate, isMarkSold, hs]

/-- C5 witness: the amended statement on the concrete SOLD_PUBLISHED
fixture; the sale price 10 TON becomes the nano amount 10000000000 handed
to markSold. -/
theorem C5_witness :
    ((approveCap 0 oracleC5 [("X", storedC5)] "X").2.2 = Except.ok () ∧
      (storeGet (approveCap 0 oracleC5 [("X", storedC5)] "X").1 "X").map
        (·.state) = some CapState.SOLD_APPROVED ∧
      (storeGet (approveCap 0 oracleC5 [("X", storedC5)] "X").1 "X").map
        (·.sellTransactionRecord) =
        some (some (Json.obj [("txId", Json.num 3)])) ∧
      ((approveCap 0 oracleC5 [("X", storedC5)] "X").2.1.filter isMarkSold) =
        [LedgerPost.markSold 42 (tonToNano storedC5.item.salePriceTon)
          (resolvedSaleTime 0 storedC5.item) (Ident.num 3)] ∧
      ((approveCap 0 oracleC5 [("X", storedC5)] "X").2.1.filter
        isSellCreate).length =
        (if storedC5.sellTransactionRecord.isSome then 0 else 1)) ∧
    tonToNano storedC5.item.salePriceTon = 10000000000 ∧
    resolvedSaleTime 0 storedC5.item = 1700000000000 :=
  ⟨C5_sold_approval 0 oracleC5 [("X", storedC5)] "X" storedC5 rfl (Or.inl rfl)
      (by decide) 42 rfl (Json.obj [("txId", Json.num 3)]) rfl (Ident.num 3) rfl
      (Json.obj [("ok", Json.bool true)]) rfl,
    by decide, rfl⟩

/-- Fixture for the manual-precedence witness: a manually edited item whose
stored name is "A". -/
def storedC4 : StoredCap :=
  { sampleStored "X" CapState.APPROVED with
      item := { sampleCap "X" with name := some "A" },
      hasManualChanges := true }

/-- The incoming sale carrying the conflicting name "B". -/
def saleC4 : CapSummary := { sampleCap "X" with name := some "B" }

/-- C4 witness: the precedence statement on the concrete store, together
with the concrete observation that the stored name stays "A" although the
incoming sale carried "B". -/
theorem C4_witness :
    (∃ e', storeGet (processSaleAnnouncement 0 [100] [("X", storedC4)] saleC4)
        saleC4.offchainGetgemsAddress = some e' ∧
      (storedC4.hasManualChanges = true →
        winsAllDefinedFields storedC4.item e'.item) ∧
      (storedC4.hasManualChanges = false →
        winsAllDefinedFields (normalizeSale saleC4) e'.item)) ∧
    (storeGet (processSaleAnnouncement 0 [100] [("X", storedC4)] saleC4)
        "X").map (·.item.name) = some (some "A") :=
  ⟨C4_manual_edit_precedence 0 [100] [("X", storedC4)] saleC4 storedC4 rfl, rfl⟩
